import Mathlib

/-!
Shallow embedding of the go-chart style-resolution and text-layout core:
the `Style` type with its default-fallback accessors, cascade (`InheritFrom`)
and diagnostic serialization; the text wrapping engine (`WrapFit`,
`WrapFitWord`, `WrapFitRune`); and the `AnnotationSeries` measure/render
guards.  Go float64 fields are modelled as rationals (no float arithmetic
occurs in this code, only copying and comparisons with zero), Go strings as
lists of characters, nil pointers as `Option`, and the pluggable renderer as
an explicit state record together with a log of emitted renderer calls.
-/

/-- Modelled from the spec: the external color value type (an opaque value
type with an is-unset predicate and a stable string representation).  The
components model the R, G, B, A channels; a color is unset when every
component is zero. -/
structure Color where
  R : Nat
  G : Nat
  B : Nat
  A : Nat
deriving DecidableEq, Repr

/-- Modelled from the spec: the is-unset predicate of the external color
type: a color is zero when all components are zero. -/
def Color.IsZero (c : Color) : Bool :=
  c.R == 0 && c.G == 0 && c.B == 0 && c.A == 0

/-- Modelled from the spec: the stable string representation of the external
color type (its exact shape is not specified by the spec). -/
def Color.string (c : Color) : String :=
  "rgba(" ++ toString c.R ++ "," ++ toString c.G ++ "," ++ toString c.B ++
    "," ++ toString c.A ++ ")"

/-- Modelled from the spec: the built-in transparent color constant used as
the final fallback for color attributes (component values are not specified
by the spec; only that the constant is a fixed color). -/
def ColorTransparent : Color := ⟨255, 255, 255, 0⟩

/-- Modelled from the spec: the external font reference type (opaque,
carrying at least a family name used by serialization). -/
structure Font where
  FamilyName : String
deriving DecidableEq, Repr

/-- A possibly-nil font pointer, the model of the Go type of the Font field
(a name usable inside the Style namespace, where the bare name Font would
denote the field projection). -/
abbrev FontPtr := Option Font

/-- Modelled from the spec: the external rectangle ("box") geometry
primitive with edge coordinates. -/
structure Box where
  Top : Int
  Left : Int
  Right : Int
  Bottom : Int
deriving DecidableEq, Repr

/-- Modelled from the spec: the width of a rectangle (distance between the
left and right edges). -/
def Box.Width (b : Box) : Int :=
  ((b.Right - b.Left).natAbs : Int)

/-- Modelled from the spec: the is-unset predicate of the rectangle type: a
box is zero when all four edges are zero. -/
def Box.IsZero (b : Box) : Bool :=
  b.Top == 0 && b.Left == 0 && b.Right == 0 && b.Bottom == 0

/-- Modelled from the spec: the stable string representation of the
rectangle type (its exact shape is not specified by the spec). -/
def Box.string (b : Box) : String :=
  "box(" ++ toString b.Top ++ "," ++ toString b.Left ++ "," ++
    toString b.Right ++ "," ++ toString b.Bottom ++ ")"

/-- Modelled from the spec: the built-in default stroke width constant
(the spec documents its existence but not its value). -/
def DefaultStrokeWidth : ℚ := 1

/-- Modelled from the spec: the built-in default font size constant
(the spec documents its existence but not its value). -/
def DefaultFontSize : ℚ := 10

/-- The horizontal text alignment enum, an integer-coded type
(src/text.go). -/
abbrev textHorizontalAlign := Int

/-- The unset state for text horizontal alignment (src/text.go). -/
def TextHorizontalAlignUnset : textHorizontalAlign := 0
/-- Left horizontal alignment (src/text.go). -/
def TextHorizontalAlignLeft : textHorizontalAlign := 1
/-- Center horizontal alignment (src/text.go). -/
def TextHorizontalAlignCenter : textHorizontalAlign := 2
/-- Right horizontal alignment (src/text.go). -/
def TextHorizontalAlignRight : textHorizontalAlign := 3

/-- The word wrap enum, an integer-coded type (src/text.go). -/
abbrev textWrap := Int

/-- The unset state for text wrap options (src/text.go). -/
def TextWrapUnset : textWrap := 0
/-- Spill text past horizontal boundaries (src/text.go). -/
def TextWrapNone : textWrap := 1
/-- Split a string on words to fit a horizontal boundary (src/text.go). -/
def TextWrapWord : textWrap := 2
/-- Split a string on a rune to fit a horizontal boundary (src/text.go). -/
def TextWrapRune : textWrap := 3

/-- The vertical text alignment enum, an integer-coded type (src/text.go). -/
abbrev textVerticalAlign := Int

/-- The unset state for vertical alignment options (src/text.go). -/
def TextVerticalAlignUnset : textVerticalAlign := 0
/-- Baseline vertical alignment (src/text.go). -/
def TextVerticalAlignBaseline : textVerticalAlign := 1
/-- Bottom vertical alignment (src/text.go). -/
def TextVerticalAlignBottom : textVerticalAlign := 2
/-- Middle vertical alignment (src/text.go). -/
def TextVerticalAlignMiddle : textVerticalAlign := 3
/-- Middle-baseline vertical alignment (src/text.go). -/
def TextVerticalAlignMiddleBaseline : textVerticalAlign := 4
/-- Top vertical alignment (src/text.go). -/
def TextVerticalAlignTop : textVerticalAlign := 5

/-- The style record, a simple style set (src/unnamed/part_000, lines
12 to 28).  Go float64 fields become rationals, the nil-able font pointer
becomes an option, and the dash array slice becomes a list. -/
structure Style where
  Show : Bool
  Padding : Box
  StrokeWidth : ℚ
  StrokeColor : Color
  StrokeDashArray : List ℚ
  FillColor : Color
  FontSize : ℚ
  FontColor : Color
  Font : Option Font
  TextHorizontalAlign : textHorizontalAlign
  TextVerticalAlign : textVerticalAlign
  TextWrap : textWrap
deriving DecidableEq, Repr

/-- The entirely zero style value (the Go zero value of the struct). -/
def zeroStyle : Style :=
  { Show := false
    Padding := ⟨0, 0, 0, 0⟩
    StrokeWidth := 0
    StrokeColor := ⟨0, 0, 0, 0⟩
    StrokeDashArray := []
    FillColor := ⟨0, 0, 0, 0⟩
    FontSize := 0
    FontColor := ⟨0, 0, 0, 0⟩
    Font := none
    TextHorizontalAlign := TextHorizontalAlignUnset
    TextVerticalAlign := TextVerticalAlignUnset
    TextWrap := TextWrapUnset }

/-- Style.IsZero returns if the object is set or not (src/unnamed/part_000,
lines 31 to 33). -/
def Style.IsZero (s : Style) : Bool :=
  s.StrokeColor.IsZero && s.FillColor.IsZero && s.StrokeWidth == 0 &&
    s.FontColor.IsZero && s.FontSize == 0 && s.Font == none

/-- Style.GetStrokeColor returns the stroke color (src/unnamed/part_000,
lines 104 to 113).  The Go variadic defaults argument is modelled as an
option: some value means one default was supplied, none means none was. -/
def Style.GetStrokeColor (s : Style) (defaults : Option Color) : Color :=
  if s.StrokeColor.IsZero then
    match defaults with
    | some d => d
    | none => ColorTransparent
  else s.StrokeColor

/-- Style.GetFillColor returns the fill color (src/unnamed/part_000, lines
115 to 124). -/
def Style.GetFillColor (s : Style) (defaults : Option Color) : Color :=
  if s.FillColor.IsZero then
    match defaults with
    | some d => d
    | none => ColorTransparent
  else s.FillColor

/-- Style.GetStrokeWidth returns the stroke width (src/unnamed/part_000,
lines 126 to 135). -/
def Style.GetStrokeWidth (s : Style) (defaults : Option ℚ) : ℚ :=
  if s.StrokeWidth == 0 then
    match defaults with
    | some d => d
    | none => DefaultStrokeWidth
  else s.StrokeWidth

/-- Style.GetStrokeDashArray returns the stroke dash array
(src/unnamed/part_000, lines 137 to 146); the Go nil slice result is
modelled as the empty list. -/
def Style.GetStrokeDashArray (s : Style) (defaults : Option (List ℚ)) :
    List ℚ :=
  if s.StrokeDashArray.length == 0 then
    match defaults with
    | some d => d
    | none => []
  else s.StrokeDashArray

/-- Style.GetFontSize gets the font size (src/unnamed/part_000, lines 148
to 157). -/
def Style.GetFontSize (s : Style) (defaults : Option ℚ) : ℚ :=
  if s.FontSize == 0 then
    match defaults with
    | some d => d
    | none => DefaultFontSize
  else s.FontSize

/-- Style.GetFontColor gets the font color (src/unnamed/part_000, lines 159
to 168). -/
def Style.GetFontColor (s : Style) (defaults : Option Color) : Color :=
  if s.FontColor.IsZero then
    match defaults with
    | some d => d
    | none => ColorTransparent
  else s.FontColor

/-- Style.GetFont returns the font face (src/unnamed/part_000, lines 170 to
179).  The Go default argument is itself a nil-able pointer, hence the
doubled option: the outer layer records whether a default was supplied, the
inner layer is the possibly-nil font reference. -/
def Style.GetFont (s : Style) (defaults : Option FontPtr) : FontPtr :=
  if s.Font == none then
    match defaults with
    | some d => d
    | none => none
  else s.Font

/-- Style.GetPadding returns the padding (src/unnamed/part_000, lines 181
to 190). -/
def Style.GetPadding (s : Style) (defaults : Option Box) : Box :=
  if s.Padding.IsZero then
    match defaults with
    | some d => d
    | none => ⟨0, 0, 0, 0⟩
  else s.Padding

/-- Style.GetTextHorizontalAlign returns the horizontal alignment
(src/unnamed/part_000, lines 192 to 201). -/
def Style.GetTextHorizontalAlign (s : Style)
    (defaults : Option textHorizontalAlign) : textHorizontalAlign :=
  if s.TextHorizontalAlign == TextHorizontalAlignUnset then
    match defaults with
    | some d => d
    | none => TextHorizontalAlignLeft
  else s.TextHorizontalAlign

/-- Style.GetTextVerticalAlign returns the vertical alignment
(src/unnamed/part_000, lines 203 to 212). -/
def Style.GetTextVerticalAlign (s : Style)
    (defaults : Option textVerticalAlign) : textVerticalAlign :=
  if s.TextVerticalAlign == TextVerticalAlignUnset then
    match defaults with
    | some d => d
    | none => TextVerticalAlignBaseline
  else s.TextVerticalAlign

/-- Style.GetTextWrap returns the word wrap (src/unnamed/part_000, lines
214 to 223). -/
def Style.GetTextWrap (s : Style) (defaults : Option textWrap) : textWrap :=
  if s.TextWrap == TextWrapUnset then
    match defaults with
    | some d => d
    | none => TextWrapWord
  else s.TextWrap

/-- Style.InheritFrom coalesces two styles into a new style
(src/unnamed/part_000, lines 251 to 265).  The Go named result starts as
the zero value, so the fields the function never assigns, in particular
Show, keep their zero value. -/
def Style.InheritFrom (s : Style) (defaults : Style) : Style :=
  { Show := false
    Padding := s.GetPadding (some defaults.Padding)
    StrokeWidth := s.GetStrokeWidth (some defaults.StrokeWidth)
    StrokeColor := s.GetStrokeColor (some defaults.StrokeColor)
    StrokeDashArray := s.GetStrokeDashArray (some defaults.StrokeDashArray)
    FillColor := s.GetFillColor (some defaults.FillColor)
    FontSize := s.GetFontSize (some defaults.FontSize)
    FontColor := s.GetFontColor (some defaults.FontColor)
    Font := s.GetFont (some defaults.Font)
    TextHorizontalAlign :=
      s.GetTextHorizontalAlign (some defaults.TextHorizontalAlign)
    TextVerticalAlign :=
      s.GetTextVerticalAlign (some defaults.TextVerticalAlign)
    TextWrap := s.GetTextWrap (some defaults.TextWrap) }

/-- Two-decimal fixed-point formatting of a rational, the model of the Go
format verb used by Style.String for float fields ("%0.2f" and "%.2f").
Ties at the third decimal are rounded away from zero, which can differ from
the Go runtime rounding of such ties; no value produced in this
development hits a tie. -/
def fmtFloat2 (q : ℚ) : String :=
  let nn : Nat := q.num.natAbs
  let scaled : Nat := (200 * nn + q.den) / (2 * q.den)
  let ip : Nat := scaled / 100
  let fp : Nat := scaled % 100
  (if q.num < 0 then "-" else "") ++ toString ip ++ "." ++
    (if fp < 10 then "0" else "") ++ toString fp

/-- Style.string returns a text representation of the style
(src/unnamed/part_000, lines 35 to 102; the Go method is named String).
Each branch transliterates the corresponding if/else of the source,
including the source quirk that the null branch of the font field reuses
the font_color label. -/
def Style.string (s : Style) : String :=
  if s.IsZero then "\x7b\x7d"
  else
    let output : List String :=
      if s.Show then ["\"show\": true"] else ["\"show\": false"]
    let output := output ++
      [if !s.Padding.IsZero then "\"padding\": " ++ s.Padding.string
       else "\"padding\": null"]
    let output := output ++
      [if s.StrokeWidth >= 0 then "\"stroke_width\": " ++ fmtFloat2 s.StrokeWidth
       else "\"stroke_width\": null"]
    let output := output ++
      [if !s.StrokeColor.IsZero then "\"stroke_color\": " ++ s.StrokeColor.string
       else "\"stroke_color\": null"]
    let output := output ++
      [if s.StrokeDashArray.length > 0 then
        "\"stroke_dash_array\": [" ++
          ", ".intercalate (s.StrokeDashArray.map fmtFloat2) ++ "]"
       else "\"stroke_dash_array\": null"]
    let output := output ++
      [if !s.FillColor.IsZero then "\"fill_color\": " ++ s.FillColor.string
       else "\"fill_color\": null"]
    let output := output ++
      [if s.FontSize != 0 then
        "\"font_size\": \"" ++ fmtFloat2 s.FontSize ++ "pt\""
       else "\"font_size\": null"]
    let output := output ++
      [if !s.FontColor.IsZero then "\"font_color\": " ++ s.FontColor.string
       else "\"font_color\": null"]
    let output := output ++
      [match s.Font with
       | some f => "\"font\": \"" ++ f.FamilyName ++ "\""
       | none => "\"font_color\": null"]
    "\x7b" ++ ", ".intercalate output ++ "\x7d"

/-- The mutable state of the renderer capability: one slot per setter of the
renderer interface (spec section 6).  MeasureText reads this state. -/
structure RState where
  strokeColor : Color
  strokeWidth : ℚ
  strokeDashArray : List ℚ
  fillColor : Color
  font : FontPtr
  fontColor : Color
  fontSize : ℚ
deriving DecidableEq, Repr

/-- The renderer calls observable in this embedding: one constructor per
setter of the renderer capability plus the text-measurement query.  The
embedded functions return the list of calls they issue, in order. -/
inductive REvent where
  | MeasureTextEv (value : List Char)
  | SetStrokeColorEv (c : Color)
  | SetStrokeWidthEv (w : ℚ)
  | SetStrokeDashArrayEv (d : List ℚ)
  | SetFillColorEv (c : Color)
  | SetFontEv (f : FontPtr)
  | SetFontColorEv (c : Color)
  | SetFontSizeEv (s : ℚ)
deriving DecidableEq, Repr

/-- A measurement backend: the pixel bounding box of a string under a given
renderer state (the MeasureText capability of spec section 6, kept abstract
as a function parameter). -/
abbrev MeasureFn := RState → List Char → Box

/-- Style.WriteToRenderer passes the style options to a renderer
(src/unnamed/part_000, lines 225 to 234): seven setter calls, each with the
no-argument resolved accessor value, in source order.  Returns the updated
renderer state and the emitted calls. -/
def Style.WriteToRenderer (s : Style) (_st : RState) : RState × List REvent :=
  ({ strokeColor := s.GetStrokeColor none
     strokeWidth := s.GetStrokeWidth none
     strokeDashArray := s.GetStrokeDashArray none
     fillColor := s.GetFillColor none
     font := s.GetFont none
     fontColor := s.GetFontColor none
     fontSize := s.GetFontSize none },
   [REvent.SetStrokeColorEv (s.GetStrokeColor none),
    REvent.SetStrokeWidthEv (s.GetStrokeWidth none),
    REvent.SetStrokeDashArrayEv (s.GetStrokeDashArray none),
    REvent.SetFillColorEv (s.GetFillColor none),
    REvent.SetFontEv (s.GetFont none),
    REvent.SetFontColorEv (s.GetFontColor none),
    REvent.SetFontSizeEv (s.GetFontSize none)])

/-- The whitespace cutset of text.Trim (src/text.go, lines 142 to 144):
space, tab, newline, carriage return. -/
def wsChar (c : Char) : Bool :=
  c == ' ' || c == '\t' || c == '\n' || c == '\r'

/-- text.Trim trims the whitespace cutset from both ends of a string
(src/text.go, lines 142 to 144), on the character-list representation. -/
def text.Trim (value : List Char) : List Char :=
  (value.dropWhile wsChar).rdropWhile wsChar

/-- Records one renderer call in front of the call log of a wrapping-loop
result (lines paired with a call log). -/
def consEv (e : REvent) (r : List (List Char) × List REvent) :
    List (List Char) × List REvent :=
  (r.1, e :: r.2)

/-- The scanning loop of text.WrapFitWord (src/text.go, lines 89 to 114):
one step per input character, carrying the committed output lines, the
current line and the in-progress word, and returning the final line list
together with the measurement calls issued.  The final step appends the
trimmed remainder as a last line.  Every non-newline character measures
the current line plus word plus the character, recorded via consEv. -/
def wrapWordLoop (meas : List Char → Int) (width : Int) :
    List Char → List (List Char) → List Char → List Char →
      List (List Char) × List REvent
  | [], output, line, word => (output ++ [text.Trim (line ++ word)], [])
  | c :: rest, output, line, word =>
    if c = '\n' then
      wrapWordLoop meas width rest (output ++ [text.Trim (line ++ word)]) [] []
    else if meas (line ++ word ++ [c]) >= width then
      consEv (REvent.MeasureTextEv (line ++ word ++ [c]))
        (wrapWordLoop meas width rest (output ++ [text.Trim line]) word [c])
    else if c = ' ' || c = '\t' then
      consEv (REvent.MeasureTextEv (line ++ word ++ [c]))
        (wrapWordLoop meas width rest output (line ++ word ++ [c]) [])
    else
      consEv (REvent.MeasureTextEv (line ++ word ++ [c]))
        (wrapWordLoop meas width rest output line (word ++ [c]))

/-- text.WrapFitWord (src/text.go, lines 80 to 115): pushes the style to
the renderer, then scans the text with the word-mode loop, measuring under
the updated renderer state.  Returns the wrapped lines, the final renderer
state and the renderer calls in order. -/
def text.WrapFitWord (meas : MeasureFn) (st : RState) (value : List Char)
    (width : Int) (style : Style) :
    List (List Char) × RState × List REvent :=
  let w := style.WriteToRenderer st
  let r := wrapWordLoop (fun l => (meas w.1 l).Width) width value [] [] []
  (r.1, w.1, w.2 ++ r.2)

/-- The scanning loop of text.WrapFitRune (src/text.go, lines 123 to 138):
one step per input character, carrying the committed output lines and the
current line, and returning the committed lines, the unfinished remainder
and the measurement calls issued. -/
def wrapRuneLoop (meas : List Char → Int) (width : Int) :
    List Char → List (List Char) → List Char →
      List (List Char) × List Char × List REvent
  | [], output, line => (output, line, [])
  | c :: rest, output, line =>
    if c = '\n' then
      wrapRuneLoop meas width rest (output ++ [line]) []
    else if meas (line ++ [c]) >= width then
      let r := wrapRuneLoop meas width rest (output ++ [line]) [c]
      (r.1, r.2.1, REvent.MeasureTextEv (line ++ [c]) :: r.2.2)
    else
      let r := wrapRuneLoop meas width rest output (line ++ [c])
      (r.1, r.2.1, REvent.MeasureTextEv (line ++ [c]) :: r.2.2)

/-- text.appendLast (src/text.go, lines 146 to 153): concatenates the text
onto the last line when any line exists, otherwise yields the text as the
sole line. -/
def text.appendLast (lines : List (List Char)) (t : List Char) :
    List (List Char) :=
  match lines with
  | [] => [t]
  | _ :: _ => lines.dropLast ++ [lines.getLastD [] ++ t]

/-- text.WrapFitRune (src/text.go, lines 117 to 140): pushes the style to
the renderer, scans with the rune-mode loop, and merges the unfinished
remainder into the committed lines with text.appendLast. -/
def text.WrapFitRune (meas : MeasureFn) (st : RState) (value : List Char)
    (width : Int) (style : Style) :
    List (List Char) × RState × List REvent :=
  let w := style.WriteToRenderer st
  let r := wrapRuneLoop (fun l => (meas w.1 l).Width) width value [] []
  (text.appendLast r.1 r.2.1, w.1, w.2 ++ r.2.2)

/-- text.WrapFit (src/text.go, lines 67 to 78): measures the unwrapped text
under the current renderer state, dispatches to the rune or word wrapper
only when the measured width exceeds the bound, and otherwise returns the
single-element unwrapped sequence. -/
def text.WrapFit (meas : MeasureFn) (st : RState) (value : List Char)
    (width : Int) (style : Style) (wrapOption : textWrap) :
    List (List Char) × RState × List REvent :=
  let valueBox := meas st value
  if valueBox.Width > width then
    if wrapOption = TextWrapRune then
      let r := text.WrapFitRune meas st value width style
      (r.1, r.2.1, REvent.MeasureTextEv value :: r.2.2)
    else if wrapOption = TextWrapWord then
      let r := text.WrapFitWord meas st value width style
      (r.1, r.2.1, REvent.MeasureTextEv value :: r.2.2)
    else ([value], st, [REvent.MeasureTextEv value])
  else ([value], st, [REvent.MeasureTextEv value])

/-- An alias for the style record, usable inside namespaces where the bare
name Style would denote a field projection. -/
abbrev ChartStyle := Style

/-- The y-axis selector of a series, an integer-coded enum
(external to the embedded sources; carried but never read by the embedded
operations). -/
abbrev YAxisType := Int

/-- Modelled from the spec: the single labelled data point consumed by the
annotation series (a chart element collaborator): an x and y value, a label
and a per-point style override (the fields read by
src/unnamed/part_001). -/
structure Value2 where
  XValue : ℚ
  YValue : ℚ
  Label : String
  Style : Style
deriving DecidableEq, Repr

/-- AnnotationSeries is a series of labels on the chart
(src/unnamed/part_001, lines 5 to 11). -/
structure AnnotationSeries where
  Name : String
  Style : Style
  YAxis : YAxisType
  Annotations : List Value2
deriving DecidableEq, Repr

/-- Modelled from the spec: the built-in default fill color for
annotation labels (value not specified by the spec). -/
def DefaultAnnotationFillColor : Color := ⟨255, 255, 255, 255⟩

/-- Modelled from the spec: the built-in default font size for annotation
labels (value not specified by the spec). -/
def DefaultAnnotationFontSize : ℚ := 10

/-- Modelled from the spec: the built-in default padding for annotation
labels (value not specified by the spec). -/
def DefaultAnnotationPadding : Box := ⟨0, 5, 5, 0⟩

/-- AnnotationSeries.annotationStyleDefaults (src/unnamed/part_001, lines
28 to 37): the defaults style an annotation series cascades its own style
over; unassigned fields keep the Go zero value. -/
def AnnotationSeries.annotationStyleDefaults (_as : AnnotationSeries)
    (defaults : ChartStyle) : ChartStyle :=
  { zeroStyle with
    Font := defaults.Font
    FillColor := DefaultAnnotationFillColor
    FontSize := DefaultAnnotationFontSize
    StrokeColor := defaults.StrokeColor
    StrokeWidth := defaults.StrokeWidth
    Padding := DefaultAnnotationPadding }

/-- The sentinel starting box of AnnotationSeries.Measure
(src/unnamed/part_001, lines 41 to 46): top and left at the 32-bit maximum
integer, right and bottom at zero. -/
def sentinelBox : Box :=
  { Top := 2147483647, Left := 2147483647, Right := 0, Bottom := 0 }

/-- AnnotationSeries.Measure returns a bounds box of the series
(src/unnamed/part_001, lines 39 to 61).  The external
Draw.MeasureAnnotation helper (canvas box, style, label x, label y, label
text to measured box) is abstracted as the function argument mA; the two
ranges are abstracted as their value-to-pixel translation functions. -/
def AnnotationSeries.Measure (as : AnnotationSeries)
    (mA : Box → ChartStyle → Int → Int → String → Box) (canvasBox : Box)
    (xrange yrange : ℚ → Int) (defaults : ChartStyle) : Box :=
  let box : Box :=
    { Top := 2147483647, Left := 2147483647, Right := 0, Bottom := 0 }
  if as.Style.IsZero || as.Style.Show then
    let seriesStyle := as.Style.InheritFrom (as.annotationStyleDefaults defaults)
    as.Annotations.foldl
      (fun b a =>
        let style := a.Style.InheritFrom seriesStyle
        let lx := canvasBox.Left + xrange a.XValue
        let ly := canvasBox.Bottom - yrange a.YValue
        let ab := mA canvasBox style lx ly a.Label
        { Top := min b.Top ab.Top
          Left := min b.Left ab.Left
          Right := max b.Right ab.Right
          Bottom := max b.Bottom ab.Bottom })
      box
  else box

/-- AnnotationSeries.Render draws the series (src/unnamed/part_001, lines
63 to 74).  Its only observable effect is the sequence of external
Draw.Annotation calls; the embedding returns the argument tuples of those
calls (canvas box, resolved style, label x, label y, label text) in
order. -/
def AnnotationSeries.Render (as : AnnotationSeries) (canvasBox : Box)
    (xrange yrange : ℚ → Int) (defaults : ChartStyle) :
    List (Box × ChartStyle × Int × Int × String) :=
  if as.Style.IsZero || as.Style.Show then
    let seriesStyle := as.Style.InheritFrom (as.annotationStyleDefaults defaults)
    as.Annotations.map
      (fun a =>
        (canvasBox, a.Style.InheritFrom seriesStyle,
         canvasBox.Left + xrange a.XValue,
         canvasBox.Bottom - yrange a.YValue, a.Label))
  else []

/-- Whether the pattern occurs as a contiguous run inside the list (used to
state word-intactness of wrapped lines on concrete inputs). -/
def occurs (pat : List Char) : List Char → Bool
  | [] => pat.isEmpty
  | c :: rest => pat.isPrefixOf (c :: rest) || occurs pat rest

/-- The whitespace-separated words of a character list: maximal runs of
characters outside the whitespace cutset. -/
def wordsOf (l : List Char) : List (List Char) :=
  (l.splitOnP wsChar).filter (fun w => !w.isEmpty)

/-- The non-whitespace character projection: the input with every character
of the whitespace cutset removed. -/
def nonWs (l : List Char) : List Char :=
  l.filter (fun c => !wsChar c)

/-- A demonstration measurement backend under which every character is one
pixel wide: the measured box of a string spans from zero to its length,
regardless of renderer state. -/
def lenMeasure : MeasureFn :=
  fun _ l => { Top := 0, Left := 0, Right := (l.length : Int), Bottom := 0 }

/-- A demonstration renderer state (all slots unset). -/
def rstate0 : RState :=
  { strokeColor := ⟨0, 0, 0, 0⟩
    strokeWidth := 0
    strokeDashArray := []
    fillColor := ⟨0, 0, 0, 0⟩
    font := none
    fontColor := ⟨0, 0, 0, 0⟩
    fontSize := 0 }

/-- The rune-mode scan of a wrapping request: the wrapRuneLoop run that
text.WrapFitRune performs after pushing the style, exposed as a definition
so that theorems can speak about the committed lines and the unfinished
remainder separately. -/
def runeScan (meas : MeasureFn) (st : RState) (value : List Char)
    (width : Int) (style : Style) :
    List (List Char) × List Char × List REvent :=
  wrapRuneLoop (fun l => (meas (style.WriteToRenderer st).1 l).Width)
    width value [] []

/-- The show field of the serialized style, written after the amended
serialization claim. -/
def specShowField (s : Style) : String :=
  if s.Show then "\"show\": true" else "\"show\": false"

/-- The padding field of the serialized style, written after the amended
serialization claim: null exactly when the padding is unset. -/
def specPaddingField (s : Style) : String :=
  if s.Padding.IsZero then "\"padding\": null"
  else "\"padding\": " ++ s.Padding.string

/-- The stroke width field of the serialized style, written after the
amended serialization claim: null exactly when the stroke width is
negative, so an unset (zero) stroke width is emitted as a value. -/
def specStrokeWidthField (s : Style) : String :=
  if s.StrokeWidth < 0 then "\"stroke_width\": null"
  else "\"stroke_width\": " ++ fmtFloat2 s.StrokeWidth

/-- The stroke color field of the serialized style, written after the
amended serialization claim: null exactly when the color is unset. -/
def specStrokeColorField (s : Style) : String :=
  if s.StrokeColor.IsZero then "\"stroke_color\": null"
  else "\"stroke_color\": " ++ s.StrokeColor.string

/-- The stroke dash array field of the serialized style, written after the
amended serialization claim: null exactly when the array is empty. -/
def specDashArrayField (s : Style) : String :=
  if s.StrokeDashArray = [] then "\"stroke_dash_array\": null"
  else "\"stroke_dash_array\": [" ++
    ", ".intercalate (s.StrokeDashArray.map fmtFloat2) ++ "]"

/-- The fill color field of the serialized style, written after the amended
serialization claim: null exactly when the color is unset. -/
def specFillColorField (s : Style) : String :=
  if s.FillColor.IsZero then "\"fill_color\": null"
  else "\"fill_color\": " ++ s.FillColor.string

/-- The font size field of the serialized style, written after the amended
serialization claim: null exactly when the size is zero. -/
def specFontSizeField (s : Style) : String :=
  if s.FontSize = 0 then "\"font_size\": null"
  else "\"font_size\": \"" ++ fmtFloat2 s.FontSize ++ "pt\""

/-- The font color field of the serialized style, written after the amended
serialization claim: null exactly when the color is unset. -/
def specFontColorField (s : Style) : String :=
  if s.FontColor.IsZero then "\"font_color\": null"
  else "\"font_color\": " ++ s.FontColor.string

/-- The font field of the serialized style, written after the amended
serialization claim: the family name when a font is present, and otherwise
a null entry that reuses the font_color label (the preserved source
quirk). -/
def specFontField (s : Style) : String :=
  match s.Font with
  | some f => "\"font\": \"" ++ f.FamilyName ++ "\""
  | none => "\"font_color\": null"

/-- The serialized style as described by the amended serialization claim:
the empty-object token for a zero style, and otherwise the nine labelled
fields in the fixed order show, padding, stroke width, stroke color,
stroke dash array, fill color, font size, font color, font. -/
def styleStringSpec (s : Style) : String :=
  if s.IsZero then "\x7b\x7d"
  else
    "\x7b" ++ ", ".intercalate
      [specShowField s, specPaddingField s, specStrokeWidthField s,
        specStrokeColorField s, specDashArrayField s, specFillColorField s,
        specFontSizeField s, specFontColorField s, specFontField s] ++ "\x7d"

/-- A non-zero style whose stroke width is zero, used to exercise the
serialization of an unset stroke width. -/
def c7Style : Style := { zeroStyle with FontSize := 12 }

/-- A demonstration annotation data point. -/
def demoPoint : Value2 :=
  { XValue := 1, YValue := 2, Label := "pt", Style := zeroStyle }

/-- A demonstration annotation series whose style is non-zero with the
visibility flag off, so both Measure and Render skip its annotations. -/
def demoSeries : AnnotationSeries :=
  { Name := "s"
    Style := { zeroStyle with StrokeColor := ⟨1, 2, 3, 4⟩, Show := false }
    YAxis := 0
    Annotations := [demoPoint] }

/-- A demonstration measurement helper for annotation labels: a fixed-size
box anchored at the label position. -/
def demoMA : Box → ChartStyle → Int → Int → String → Box :=
  fun _ _ lx ly _ => { Top := ly, Left := lx, Right := lx + 3, Bottom := ly + 3 }

/-- A demonstration annotation series whose style is entirely zero, so the
visibility guard holds by zero-ness and its annotations are processed. -/
def demoVisibleSeries : AnnotationSeries :=
  { Name := "v", Style := zeroStyle, YAxis := 0, Annotations := [demoPoint] }

/-- Resolving an already-resolved attribute against the same default is the
identity: the core single-attribute idempotence argument behind the cascade
idempotence claim. -/
theorem resolveIdem {α : Type} (z : α → Prop) [DecidablePred z] (a b : α) :
    (if z (if z a then b else a) then b else (if z a then b else a)) =
      if z a then b else a := by
  by_cases h : z a
  · simp only [if_pos h]
    by_cases h2 : z b <;> simp [h2]
  · simp [if_neg h]

/-- Filtering commutes with list reversal. -/
theorem filterRev {α : Type} (q : α → Bool) (l : List α) :
    l.reverse.filter q = (l.filter q).reverse := by
  induction l with
  | nil => rfl
  | cons c t ih =>
    simp only [List.reverse_cons, List.filter_append, List.filter_cons, ih]
    cases h : q c <;> simp

/-- Dropping a prefix of p-elements cannot change a filter that rejects
every p-element. -/
theorem filterDropWhile {α : Type} (p q : α → Bool)
    (h : ∀ c, p c = true → q c = false) (l : List α) :
    (l.dropWhile p).filter q = l.filter q := by
  induction l with
  | nil => rfl
  | cons c t ih =>
    cases hp : p c with
    | true =>
      rw [List.dropWhile_cons_of_pos hp, ih, List.filter_cons, h c hp]
      simp
    | false => rw [List.dropWhile_cons_of_neg (by simp [hp])]

/-- Dropping a suffix of p-elements cannot change a filter that rejects
every p-element. -/
theorem filterRdropWhile {α : Type} (p q : α → Bool)
    (h : ∀ c, p c = true → q c = false) (l : List α) :
    (l.rdropWhile p).filter q = l.filter q := by
  rw [List.rdropWhile, filterRev, filterDropWhile p q h, ← filterRev,
    List.reverse_reverse]

/-- Trimming only removes whitespace: the non-whitespace filter of a
trimmed string equals that of the original. -/
theorem filterTrim (l : List Char) :
    (text.Trim l).filter (fun c => !wsChar c) =
      l.filter (fun c => !wsChar c) := by
  rw [text.Trim, filterRdropWhile, filterDropWhile]
  · intro c hc
    simp [hc]
  · intro c hc
    simp [hc]

/-- A list with no leading p-elements still has no leading p-element after
its trailing p-elements are removed. -/
theorem dropWhileRdropWhile {α : Type} (p : α → Bool) (A : List α)
    (h : A.dropWhile p = A) :
    (A.rdropWhile p).dropWhile p = A.rdropWhile p := by
  rw [List.dropWhile_eq_self_iff] at h ⊢
  intro hl
  obtain ⟨t, ht⟩ := List.rdropWhile_prefix p A
  have hlen : 0 < A.length := by
    have := List.IsPrefix.length_le ⟨t, ht⟩
    omega
  have h0 : (A.rdropWhile p)[0]? = A[0]? := by
    conv_rhs => rw [← ht]
    rw [List.getElem?_append, if_pos hl]
  have e1 : (A.rdropWhile p)[0]? = some ((A.rdropWhile p).get ⟨0, hl⟩) := by
    simp [List.getElem?_eq_getElem, hl]
  have e2 : A[0]? = some (A.get ⟨0, hlen⟩) := by
    simp [List.getElem?_eq_getElem, hlen]
  rw [e1, e2, Option.some_inj] at h0
  rw [h0]
  exact h hlen

/-- text.Trim is idempotent. -/
theorem trimIdem (l : List Char) : text.Trim (text.Trim l) = text.Trim l := by
  rw [text.Trim, text.Trim,
    dropWhileRdropWhile wsChar _ (List.dropWhile_idempotent wsChar l),
    List.rdropWhile_idempotent]

/-- Recording a renderer call does not change the produced lines. -/
theorem consEvFst (e : REvent) (r : List (List Char) × List REvent) :
    (consEv e r).1 = r.1 := rfl

/-- Every line produced by the word-mode scanning loop is trimmed, provided
every already-committed line is: each branch commits only trimmed lines. -/
theorem wrapWordLoopTrimmed (meas : List Char → Int) (width : Int) :
    ∀ (cs : List Char) (output : List (List Char)) (line word : List Char),
      (∀ l ∈ output, text.Trim l = l) →
      ∀ l ∈ (wrapWordLoop meas width cs output line word).1,
        text.Trim l = l := by
  intro cs
  induction cs with
  | nil =>
    intro output line word hout l hl
    simp only [wrapWordLoop, List.mem_append, List.mem_singleton] at hl
    rcases hl with h | h
    · exact hout l h
    · rw [h]; exact trimIdem _
  | cons c rest ih =>
    intro output line word hout l hl
    simp only [wrapWordLoop] at hl
    by_cases hc : c = '\n'
    · rw [if_pos hc] at hl
      refine ih _ _ _ ?_ l hl
      intro l2 hl2
      rcases List.mem_append.mp hl2 with h | h
      · exact hout l2 h
      · rw [List.mem_singleton.mp h]; exact trimIdem _
    · rw [if_neg hc] at hl
      by_cases hw : meas (line ++ word ++ [c]) >= width
      · rw [if_pos hw, consEvFst] at hl
        refine ih _ _ _ ?_ l hl
        intro l2 hl2
        rcases List.mem_append.mp hl2 with h | h
        · exact hout l2 h
        · rw [List.mem_singleton.mp h]; exact trimIdem _
      · rw [if_neg hw] at hl
        by_cases hsp : c = ' ' || c = '\t'
        · rw [if_pos hsp, consEvFst] at hl
          exact ih _ _ _ hout l hl
        · rw [if_neg hsp, consEvFst] at hl
          exact ih _ _ _ hout l hl

/-- The non-whitespace projection of a cons splits off the head. -/
theorem nonWsCons (c : Char) (l : List Char) :
    nonWs (c :: l) = nonWs [c] ++ nonWs l := by
  simp only [nonWs, List.filter_cons]
  cases h : wsChar c <;> simp

/-- Trimming preserves the non-whitespace projection. -/
theorem nonWsTrim (l : List Char) : nonWs (text.Trim l) = nonWs l :=
  filterTrim l

/-- The non-whitespace projection of the empty string. -/
theorem nonWsNil : nonWs [] = [] := rfl

/-- The non-whitespace projection distributes over concatenation. -/
theorem nonWsAppend (a b : List Char) :
    nonWs (a ++ b) = nonWs a ++ nonWs b := by
  simp [nonWs]

/-- Appending one more line to a line list appends its non-whitespace
characters to the flattened projection. -/
theorem nonWsJoinSnoc (output : List (List Char)) (x : List Char) :
    nonWs (output ++ [x]).flatten = nonWs output.flatten ++ nonWs x := by
  simp [nonWs, List.filter_append]

/-- The word-mode scanning loop never loses or reorders a non-whitespace
character: the flattened output carries exactly the non-whitespace
characters of the committed lines, the two accumulators and the remaining
input, in order. -/
theorem wrapWordLoopNw (meas : List Char → Int) (width : Int) :
    ∀ (cs : List Char) (output : List (List Char)) (line word : List Char),
      nonWs (wrapWordLoop meas width cs output line word).1.flatten =
        nonWs output.flatten ++ nonWs line ++ nonWs word ++ nonWs cs := by
  intro cs
  induction cs with
  | nil =>
    intro output line word
    simp only [wrapWordLoop, nonWsJoinSnoc, nonWsTrim, nonWsAppend, nonWsNil]
    simp [List.append_assoc]
  | cons c rest ih =>
    intro output line word
    simp only [wrapWordLoop]
    by_cases hc : c = '\n'
    · rw [if_pos hc, ih, nonWsCons c rest, nonWsJoinSnoc, nonWsTrim,
        nonWsAppend]
      subst hc
      have h1 : nonWs ['\n'] = [] := rfl
      simp [h1, nonWsNil, List.append_assoc]
    · rw [if_neg hc]
      by_cases hw : meas (line ++ word ++ [c]) >= width
      · rw [if_pos hw, consEvFst, ih, nonWsCons c rest, nonWsJoinSnoc,
          nonWsTrim]
        simp [List.append_assoc]
      · rw [if_neg hw]
        by_cases hsp : c = ' ' || c = '\t'
        · rw [if_pos hsp, consEvFst, ih, nonWsCons c rest, nonWsAppend,
            nonWsAppend, nonWsNil]
          have hor : c = ' ' ∨ c = '\t' := by simpa using hsp
          have h1 : nonWs [c] = [] := by
            rcases hor with h | h <;> subst h <;> rfl
          simp [h1, nonWsNil, List.append_assoc]
        · rw [if_neg hsp, consEvFst, ih, nonWsCons c rest, nonWsAppend]
          simp [List.append_assoc]

/-- The lines returned by text.WrapFitWord are those of its scanning loop,
measured under the post-push renderer state. -/
theorem wrapFitWordLines : ∀ (meas : MeasureFn) (st : RState)
    (value : List Char) (width : Int) (style : Style),
    (text.WrapFitWord meas st value width style).1 =
      (wrapWordLoop (fun l => (meas (style.WriteToRenderer st).1 l).Width)
        width value [] [] []).1 := by
  intro meas st value width style
  rfl

/-- The lines returned by text.WrapFitRune are the committed lines of its
scan with the unfinished remainder merged in by text.appendLast. -/
theorem wrapFitRuneScan (meas : MeasureFn) (st : RState) (value : List Char)
    (width : Int) (style : Style) :
    (text.WrapFitRune meas st value width style).1 =
      text.appendLast (runeScan meas st value width style).1
        (runeScan meas st value width style).2.1 := rfl

/-- An if-expression around a singleton list commutes with consing onto a
tail list. -/
theorem ifSingletonAppend {b : Prop} [Decidable b] (x y : String)
    (L : List String) :
    (if b then [x] else [y]) ++ L = (if b then x else y) :: L := by
  by_cases h : b <;> simp [h]

/-- An if-expression on a negated boolean flips its branches. -/
theorem ifNotFlip {b : Bool} (x y : String) :
    (if (!b) = true then x else y) = (if b = true then y else x) := by
  cases b <;> simp

/-- Claim C1: for every Style s and every defaults Style d, cascading twice
with the same defaults equals cascading once:
s.InheritFrom(d).InheritFrom(d) = s.InheritFrom(d). -/
theorem inheritFrom_idempotent : ∀ (s d : Style),
    (s.InheritFrom d).InheritFrom d = s.InheritFrom d := by
  intro s d
  simp only [Style.InheritFrom, Style.GetStrokeColor, Style.GetFillColor,
    Style.GetStrokeWidth, Style.GetStrokeDashArray, Style.GetFontSize,
    Style.GetFontColor, Style.GetFont, Style.GetPadding,
    Style.GetTextHorizontalAlign, Style.GetTextVerticalAlign,
    Style.GetTextWrap, Style.mk.injEq]
  refine ⟨trivial, ?_, ?_, ?_, ?_, ?_, ?_, ?_, ?_, ?_, ?_, ?_⟩
  · exact resolveIdem (fun (b : Box) => b.IsZero = true) _ _
  · exact resolveIdem (fun q => (q == (0 : ℚ)) = true) _ _
  · exact resolveIdem (fun (c : Color) => c.IsZero = true) _ _
  · exact resolveIdem (fun (l : List ℚ) => (l.length == 0) = true) _ _
  · exact resolveIdem (fun (c : Color) => c.IsZero = true) _ _
  · exact resolveIdem (fun q => (q == (0 : ℚ)) = true) _ _
  · exact resolveIdem (fun (c : Color) => c.IsZero = true) _ _
  · exact resolveIdem (fun f => (f == (none : FontPtr)) = true) _ _
  · exact resolveIdem (fun v => (v == TextHorizontalAlignUnset) = true) _ _
  · exact resolveIdem (fun v => (v == TextVerticalAlignUnset) = true) _ _
  · exact resolveIdem (fun v => (v == TextWrapUnset) = true) _ _

/-- Claim C2, counterexample: under a renderer measuring one pixel per
character and width 4, WrapFitWord splits the single word "abcde" across
lines (producing an empty first line, "abc" and "de"), so the word does not
appear intact in one line, it does not merely overflow, and joining the
output lines with single spaces does not reconstruct the original words. -/
theorem wrapFitWord_word_split_counterexample :
    (text.WrapFitWord lenMeasure rstate0 ("abcde".data) 4 zeroStyle).1 =
      [[], "abc".data, "de".data] ∧
    wordsOf (" ".intercalate
      ((text.WrapFitWord lenMeasure rstate0 ("abcde".data) 4 zeroStyle).1.map
        List.asString)).data ≠ wordsOf ("abcde".data) := by
  refine ⟨by decide, by decide⟩

/-- Claim C2, amended: for every measuring renderer, renderer state, input,
width and style, every line returned by WrapFitWord is trimmed of the
whitespace cutset, and the concatenation of the returned lines carries
exactly the non-whitespace characters of the input in order; a single word
wider than maxWidth, however, may be broken across lines rather than
overflowing intact. -/
theorem wrapFitWord_trimmed_preserves_chars : ∀ (meas : MeasureFn)
    (st : RState) (value : List Char) (width : Int) (style : Style),
    (∀ l ∈ (text.WrapFitWord meas st value width style).1,
        text.Trim l = l) ∧
    nonWs (text.WrapFitWord meas st value width style).1.flatten =
      nonWs value := by
  intro meas st value width style
  rw [wrapFitWordLines]
  constructor
  · intro l hl
    exact wrapWordLoopTrimmed _ _ value [] [] [] (by simp) l hl
  · rw [wrapWordLoopNw]
    simp [nonWsNil]

/-- Claim C2, witness: the amended theorem applied at the concrete
counterexample input, on the concrete line "abc" of its output. -/
theorem wrapFitWord_trimmed_witness : text.Trim ("abc".data) = "abc".data :=
  (wrapFitWord_trimmed_preserves_chars lenMeasure rstate0 ("abcde".data) 4
    zeroStyle).1 ("abc".data) (by decide)

/-- Claim C3: for every input with no newline that measures wider than the
bound, WrapFitRune merges the final unfinished remainder into the last
committed line (and yields it as the sole line only when nothing was
committed); concretely, with one pixel per character and width 4 (exactly
three characters fit), WrapFitRune on "abcdefg" returns ["abc", "defg"]. -/
theorem wrapFitRune_tail_merge :
    (∀ (meas : MeasureFn) (st : RState) (value : List Char) (width : Int)
        (style : Style),
      '\n' ∉ value →
      width < (meas (style.WriteToRenderer st).1 value).Width →
      (((runeScan meas st value width style).1 = [] →
        (text.WrapFitRune meas st value width style).1 =
          [(runeScan meas st value width style).2.1]) ∧
      ((runeScan meas st value width style).1 ≠ [] →
        (text.WrapFitRune meas st value width style).1 =
          (runeScan meas st value width style).1.dropLast ++
            [(runeScan meas st value width style).1.getLastD [] ++
              (runeScan meas st value width style).2.1]))) ∧
    (text.WrapFitRune lenMeasure rstate0 ("abcdefg".data) 4 zeroStyle).1 =
      ["abc".data, "defg".data] := by
  constructor
  · intro meas st value width style hnl hwide
    constructor
    · intro h0
      rw [wrapFitRuneScan, h0]
      rfl
    · intro hne
      rw [wrapFitRuneScan]
      rcases hL : (runeScan meas st value width style).1 with _ | ⟨a, t⟩
      · exact absurd hL hne
      · simp [text.appendLast, hL]
  · decide

/-- Claim C3, witness: the tail-merge branch applied at the concrete
"abcdefg" input with one pixel per character and width 4. -/
theorem wrapFitRune_tail_merge_witness :
    (text.WrapFitRune lenMeasure rstate0 ("abcdefg".data) 4 zeroStyle).1 =
      (runeScan lenMeasure rstate0 ("abcdefg".data) 4 zeroStyle).1.dropLast ++
        [(runeScan lenMeasure rstate0 ("abcdefg".data) 4
            zeroStyle).1.getLastD [] ++
          (runeScan lenMeasure rstate0 ("abcdefg".data) 4 zeroStyle).2.1] :=
  (wrapFitRune_tail_merge.1 lenMeasure rstate0 ("abcdefg".data) 4 zeroStyle
    (by decide) (by decide)).2 (by decide)

/-- Claim C4, counterexample: cascading the zero style over a defaults
style does not apply the defaults own recursive resolution.  With both
styles entirely zero, the resulting horizontal alignment stays unset
instead of falling through to the built-in left default that the defaults
own accessor would produce; and a defaults Show flag is not reproduced. -/
theorem zero_inheritFrom_counterexample :
    (zeroStyle.InheritFrom zeroStyle).TextHorizontalAlign =
        TextHorizontalAlignUnset ∧
    zeroStyle.GetTextHorizontalAlign none = TextHorizontalAlignLeft ∧
    TextHorizontalAlignUnset ≠ TextHorizontalAlignLeft ∧
    (zeroStyle.InheritFrom { zeroStyle with Show := true }).Show = false := by
  refine ⟨by decide, by decide, by decide, by decide⟩

/-- Claim C4, amended: if s is the entirely zero Style, s.InheritFrom(d)
copies every attribute of d verbatim, except that the Show flag is forced
to false; fields that d leaves unset remain unset (no recursive fallback to
the built-in defaults, so a zero stroke width of d stays zero). -/
theorem zero_inheritFrom_copies_defaults : ∀ d : Style,
    zeroStyle.InheritFrom d = { d with Show := false } := by
  intro d
  rfl

/-- Claim C5: a Style is zero exactly when stroke color, fill color and
font color are unset, the stroke width and font size are zero and the font
reference is absent; and the verdict is unchanged by the padding, Show,
stroke dash array and alignment or wrap fields. -/
theorem isZero_characterization : ∀ s : Style,
    (s.IsZero = true ↔
      (s.StrokeColor.IsZero = true ∧ s.FillColor.IsZero = true ∧
        s.StrokeWidth = 0 ∧ s.FontColor.IsZero = true ∧ s.FontSize = 0 ∧
        s.Font = none)) ∧
    (∀ (p : Box) (sh : Bool) (sda : List ℚ) (tha : textHorizontalAlign)
      (tva : textVerticalAlign) (tw : textWrap),
      Style.IsZero
          { s with
            Padding := p
            Show := sh
            StrokeDashArray := sda
            TextHorizontalAlign := tha
            TextVerticalAlign := tva
            TextWrap := tw } =
        s.IsZero) := by
  intro s
  constructor
  · simp [Style.IsZero, and_assoc]
  · intro p sh sda tha tva tw
    rfl

/-- Claim C6: when the measured width of the unwrapped text does not exceed
the bound, WrapFit returns exactly the one-element sequence holding the
original text; and for any wrap mode other than the word and rune modes
(including unset and none), it returns that one-element sequence regardless
of the measured width. -/
theorem wrapFit_returns_unwrapped : ∀ (meas : MeasureFn) (st : RState)
    (value : List Char) (width : Int) (style : Style) (mode : textWrap),
    (¬ (meas st value).Width > width →
      (text.WrapFit meas st value width style mode).1 = [value]) ∧
    (mode ≠ TextWrapWord → mode ≠ TextWrapRune →
      (text.WrapFit meas st value width style mode).1 = [value]) := by
  intro meas st value width style mode
  constructor
  · intro h
    simp [text.WrapFit, h]
  · intro hw hr
    simp only [text.WrapFit]
    by_cases hb : (meas st value).Width > width
    · rw [if_pos hb, if_neg hr, if_neg hw]
    · rw [if_neg hb]

/-- Claim C6, witness: a two-character text under width 5 with the word
mode comes back unwrapped. -/
theorem wrapFit_returns_unwrapped_witness :
    (text.WrapFit lenMeasure rstate0 ("hi".data) 5 zeroStyle
        TextWrapWord).1 = ["hi".data] :=
  (wrapFit_returns_unwrapped lenMeasure rstate0 ("hi".data) 5 zeroStyle
    TextWrapWord).1 (by decide)

/-- Claim C7, counterexample: the style whose only set attribute is a font
size serializes with a stroke_width value of 0.00 rather than the null the
claim predicts for an unset stroke width, and its absent font is emitted
under the font_color label rather than a font label. -/
theorem style_string_counterexample :
    occurs ("\"stroke_width\": null".data) ((Style.string c7Style).data) =
        false ∧
    occurs ("\"stroke_width\": 0.00".data) ((Style.string c7Style).data) =
        true ∧
    occurs ("\"font\"".data) ((Style.string c7Style).data) = false ∧
    c7Style.IsZero = false := by
  refine ⟨by decide, by decide, by decide, by decide⟩

/-- Claim C7, amended: a zero Style serializes to the empty-object token;
a non-zero Style emits the fields in the fixed order show, padding,
stroke_width, stroke_color, stroke_dash_array, fill_color, font_size,
font_color, font, emitting null for each attribute whose zero-check says it
is unset, except that stroke_width emits null only when negative (an unset
zero stroke width is emitted as the value 0.00) and an absent font emits
its null under the font_color label. -/
theorem style_string_spec_eq : ∀ s : Style,
    Style.string s = styleStringSpec s := by
  intro s
  by_cases hz : s.IsZero
  · simp [Style.string, styleStringSpec, hz]
  · simp only [Style.string, styleStringSpec, hz, Bool.false_eq_true,
      if_false, specShowField, specPaddingField, specStrokeWidthField,
      specStrokeColorField, specDashArrayField, specFillColorField,
      specFontSizeField, specFontColorField, specFontField,
      List.singleton_append, List.cons_append, List.nil_append,
      List.append_assoc, ifSingletonAppend]
    refine congrArg (fun L => "\x7b" ++ ", ".intercalate L ++ "\x7d") ?_
    simp only [List.cons.injEq]
    refine ⟨trivial, ifNotFlip _ _, ?_, ifNotFlip _ _, ?_, ifNotFlip _ _,
      ?_, ifNotFlip _ _, trivial⟩
    · rcases lt_or_ge s.StrokeWidth 0 with h | h
      · rw [if_neg (not_le.mpr h), if_pos h]
      · rw [if_pos h, if_neg (not_lt.mpr h)]
    · by_cases h : s.StrokeDashArray = []
      · simp [h]
      · simp [h, List.length_pos.mpr h]
    · by_cases h : s.FontSize = 0 <;> simp [h, bne]

/-- Claim C8: the cascade never inherits the Show flag: the result of
s.InheritFrom(d) always has Show equal to false, so whenever s.Show is
true the cascade is not the identity on s. -/
theorem inheritFrom_drops_show : ∀ (s d : Style),
    (s.InheritFrom d).Show = false ∧
      (s.Show = true → s.InheritFrom d ≠ s) := by
  intro s d
  refine ⟨rfl, ?_⟩
  intro h hEq
  have h2 : (s.InheritFrom d).Show = s.Show := by rw [hEq]
  rw [h] at h2
  exact Bool.false_ne_true h2

/-- Claim C8, witness: a visible zero style stops being equal to itself
after cascading over the zero defaults. -/
theorem inheritFrom_drops_show_witness :
    ({ zeroStyle with Show := true } : Style).InheritFrom zeroStyle ≠
      { zeroStyle with Show := true } :=
  (inheritFrom_drops_show { zeroStyle with Show := true } zeroStyle).2
    (by decide)

/-- Claim C9: when the text fits (and likewise for an unrecognized wrap
mode), WrapFit issues exactly one MeasureText call and no setter calls,
leaving the renderer state untouched; and in every case its first renderer
call is the fit-check measurement of the whole text, taken under the state
the renderer already had. -/
theorem wrapFit_effects_on_fit : ∀ (meas : MeasureFn) (st : RState)
    (value : List Char) (width : Int) (style : Style) (mode : textWrap),
    (¬ (meas st value).Width > width →
      (text.WrapFit meas st value width style mode).2.2 =
        [REvent.MeasureTextEv value] ∧
      (text.WrapFit meas st value width style mode).2.1 = st) ∧
    (mode ≠ TextWrapWord → mode ≠ TextWrapRune →
      (text.WrapFit meas st value width style mode).2.2 =
        [REvent.MeasureTextEv value] ∧
      (text.WrapFit meas st value width style mode).2.1 = st) ∧
    (text.WrapFit meas st value width style mode).2.2.head? =
      some (REvent.MeasureTextEv value) := by
  intro meas st value width style mode
  refine ⟨?_, ?_, ?_⟩
  · intro h
    constructor <;> simp [text.WrapFit, h]
  · intro hw hr
    constructor <;>
      · simp only [text.WrapFit]
        by_cases hb : (meas st value).Width > width
        · rw [if_pos hb, if_neg hr, if_neg hw]
        · rw [if_neg hb]
  · simp only [text.WrapFit]
    by_cases hb : (meas st value).Width > width
    · rw [if_pos hb]
      by_cases hr : mode = TextWrapRune
      · rw [if_pos hr]
        rfl
      · rw [if_neg hr]
        by_cases hw : mode = TextWrapWord
        · rw [if_pos hw]
          rfl
        · rw [if_neg hw]
          rfl
    · rw [if_neg hb]
      rfl

/-- Claim C9, witness: on a fitting text, the call log is the single
measurement and the renderer state is unchanged. -/
theorem wrapFit_effects_witness :
    (text.WrapFit lenMeasure rstate0 ("hi".data) 5 zeroStyle
        TextWrapWord).2.2 = [REvent.MeasureTextEv ("hi".data)] ∧
    (text.WrapFit lenMeasure rstate0 ("hi".data) 5 zeroStyle
        TextWrapWord).2.1 = rstate0 :=
  (wrapFit_effects_on_fit lenMeasure rstate0 ("hi".data) 5 zeroStyle
    TextWrapWord).1 (by decide)

/-- Claim C10: an annotation series processes its annotations exactly when
its style is entirely zero or its Show flag is set: when the guard fails,
Measure returns the untouched sentinel box and Render draws nothing; when
it holds, Measure folds the external measurement of every annotation into
the sentinel box by edge-wise min and max, and Render draws one annotation
per data point.  A completely unset style counts as visible: on the
concrete zero-styled series the measured bounds are those of its single
annotation, not the sentinel. -/
theorem annotationSeries_guard :
    (∀ (mA : Box → ChartStyle → Int → Int → String → Box)
      (as : AnnotationSeries) (cb : Box) (xr yr : ℚ → Int) (d : ChartStyle),
      ((as.Style.IsZero || as.Style.Show) = false →
        as.Measure mA cb xr yr d = sentinelBox ∧
        as.Render cb xr yr d = []) ∧
      ((as.Style.IsZero || as.Style.Show) = true →
        as.Measure mA cb xr yr d =
          as.Annotations.foldl
            (fun b a =>
              { Top := min b.Top
                  (mA cb
                    (a.Style.InheritFrom
                      (as.Style.InheritFrom (as.annotationStyleDefaults d)))
                    (cb.Left + xr a.XValue) (cb.Bottom - yr a.YValue)
                    a.Label).Top
                Left := min b.Left
                  (mA cb
                    (a.Style.InheritFrom
                      (as.Style.InheritFrom (as.annotationStyleDefaults d)))
                    (cb.Left + xr a.XValue) (cb.Bottom - yr a.YValue)
                    a.Label).Left
                Right := max b.Right
                  (mA cb
                    (a.Style.InheritFrom
                      (as.Style.InheritFrom (as.annotationStyleDefaults d)))
                    (cb.Left + xr a.XValue) (cb.Bottom - yr a.YValue)
                    a.Label).Right
                Bottom := max b.Bottom
                  (mA cb
                    (a.Style.InheritFrom
                      (as.Style.InheritFrom (as.annotationStyleDefaults d)))
                    (cb.Left + xr a.XValue) (cb.Bottom - yr a.YValue)
                    a.Label).Bottom })
            sentinelBox ∧
        (as.Render cb xr yr d).length = as.Annotations.length)) ∧
    demoVisibleSeries.Measure demoMA ⟨0, 0, 10, 10⟩ (fun _ => 1)
        (fun _ => 1) zeroStyle = ⟨9, 1, 4, 12⟩ ∧
    (⟨9, 1, 4, 12⟩ : Box) ≠ sentinelBox := by
  refine ⟨?_, by decide, by decide⟩
  intro mA as cb xr yr d
  constructor
  · intro h
    constructor
    · simp [AnnotationSeries.Measure, h, sentinelBox]
    · simp [AnnotationSeries.Render, h]
  · intro h
    constructor
    · simp only [AnnotationSeries.Measure, h, if_true]
      rfl
    · simp [AnnotationSeries.Render, h]

/-- Claim C10, witness: a series with a non-zero style whose Show flag is
off measures to the sentinel box and renders nothing, even though it holds
one annotation. -/
theorem annotationSeries_guard_witness :
    demoSeries.Measure demoMA ⟨0, 0, 10, 10⟩ (fun _ => 1) (fun _ => 1)
        zeroStyle = sentinelBox ∧
    demoSeries.Render ⟨0, 0, 10, 10⟩ (fun _ => 1) (fun _ => 1) zeroStyle =
      [] :=
  (annotationSeries_guard.1 demoMA demoSeries ⟨0, 0, 10, 10⟩ (fun _ => 1)
    (fun _ => 1) zeroStyle).1 (by decide)
